import Mathlib

/-!
Shallow embedding of the chunk-transfer core of the CYFS repository
(`cyfs-bdt`): the chunk stream cache, the stream decoder/encoder state
machines (`ndn/chunk/cache2/stream.rs`), the channel manager
(`ndn/channel/manager.rs`) and the chunk download task
(`ndn/download/chunk.rs`).

Rust `RwLock`-guarded state is modelled by explicit state passing; a Rust
panic (`unwrap` on a missing value, `unimplemented!()`, out-of-bounds
slice) is modelled by an `Option` result whose `none` value means abnormal
termination; fallible Rust functions returning `BuckyResult` are modelled
with `Except BuckyError`.  Machine integers (`u32`, `u64`, `usize`)
are modelled as `Nat`: none of the embedded operations can overflow on the
inputs the claims quantify over (lengths, piece indices and bounded sums).
-/

namespace CYFS

/-- The error codes of `BuckyErrorCode` used by the embedded functions;
every other code is collapsed into `Other`. -/
inductive BuckyErrorCode : Type
  | Ok
  | InvalidInput
  | NotFound
  | UnSupport
  | UserCanceled
  | Other (n : Nat)
deriving DecidableEq, Repr

/-- `BuckyError`: an error code together with a message. -/
structure BuckyError : Type where
  code : BuckyErrorCode
  msg : String
deriving DecidableEq, Repr

/-- The result record returned by the index queues and by
`push_piece_data` (fields `valid`, `exists`, `finished`). -/
structure PushIndexResult : Type where
  valid : Bool
  «exists» : Bool
  finished : Bool
deriving DecidableEq, Repr

/-- Modelled from the spec: `PushIndexResult::pushed()` — the range was
newly reserved/committed: valid and not already present. -/
def PushIndexResult.pushed (r : PushIndexResult) : Bool :=
  r.valid && !r.exists

/-- Modelled from the spec: the receive-side `IncomeIndexQueue` (its
source is not part of this snapshot).  It tracks a piece-index space
`[0, count)`; `reserved` holds indices reserved by `try_push` but not
yet committed, `committed` holds indices whose byte range has been fully
written. -/
structure IncomeIndexQueue : Type where
  count : Nat
  reserved : List Nat
  committed : List Nat
deriving DecidableEq, Repr

namespace IncomeIndexQueue

/-- Modelled from the spec: a fresh queue over `[0, count)` with nothing
reserved or committed. -/
def new (count : Nat) : IncomeIndexQueue :=
  ⟨count, [], []⟩

/-- An index is present when it is reserved or committed (a losing
concurrent caller of `try_push` observes `exists = true`). -/
def present (q : IncomeIndexQueue) (i : Nat) : Bool :=
  q.reserved.contains i || q.committed.contains i

/-- Modelled from the spec: `exists(index)` — true iff the index's byte
range has been fully written (committed). -/
def existsIdx (q : IncomeIndexQueue) (i : Nat) : Bool :=
  q.committed.contains i

/-- Modelled from the spec: `try_push(start..end)`.  `valid = false` when
the range lies outside `[0, count)`; `exists = true` when every index of
the range is already reserved or committed (idempotent re-receive);
otherwise the range is reserved exclusively and `valid = true,
exists = false` is returned. -/
def try_push (q : IncomeIndexQueue) (s e : Nat) : PushIndexResult × IncomeIndexQueue :=
  if s < e ∧ e ≤ q.count then
    if (List.range' s (e - s)).all (fun i => q.present i) then
      (⟨true, true, false⟩, q)
    else
      (⟨true, false, false⟩,
        { q with reserved := q.reserved ++ (List.range' s (e - s)).filter (fun i => !q.present i) })
  else
    (⟨false, false, false⟩, q)

/-- Modelled from the spec: `push(start..end)` — commits a previously
reserved range; `finished = true` iff the queue's full configured window
`[0, count)` is now fully committed. -/
def push (q : IncomeIndexQueue) (s e : Nat) : PushIndexResult × IncomeIndexQueue :=
  let committed' := q.committed ++ (List.range' s (e - s)).filter (fun i => !q.committed.contains i)
  let q' : IncomeIndexQueue :=
    { q with
      reserved := q.reserved.filter (fun i => !(s ≤ i ∧ i < e : Bool)),
      committed := committed' }
  (⟨true, false, (List.range q.count).all (fun i => committed'.contains i)⟩, q')

/-- Modelled from the spec: `require(start, end, step)` — `none` when
every index of the window `[start, end)` is committed; otherwise the
first missing index in iteration order together with the maximal missing
sub-ranges. -/
def require (q : IncomeIndexQueue) (s e : Nat) (step : Int) :
    Option (Option Nat × Option (List (Nat × Nat))) :=
  if (List.range' s (e - s)).filter (fun i => !q.committed.contains i) = [] then
    none
  else
    some
      (if 0 ≤ step then
        ((List.range' s (e - s)).filter (fun i => !q.committed.contains i)).head?
      else
        ((List.range' s (e - s)).filter
          (fun i => !q.committed.contains i)).reverse.head?,
      some (((List.range' s (e - s)).filter
        (fun i => !q.committed.contains i)).map (fun i => (i, i + 1))))

end IncomeIndexQueue

/-- `PieceDesc` (stream variant): `Range(index, step)` — a fixed-size
slice identified by `index`, with `step` the piece byte size. -/
inductive PieceDesc : Type
  | Range (index : Nat) (step : Nat)
deriving DecidableEq, Repr

/-- Modelled from the spec: `PieceDesc::unwrap_as_stream()` yields the
`(index, step)` pair of the stream variant. -/
def PieceDesc.unwrap_as_stream : PieceDesc → Nat × Nat
  | .Range index step => (index, step)

/-- Modelled from the spec: `PieceDesc::stream_piece_range(chunk)` — the
piece index together with the absolute byte range
`[index * step, min ((index+1) * step) chunkLen)` of the piece inside a
chunk of `chunkLen` bytes. -/
def PieceDesc.stream_piece_range (chunkLen : Nat) : PieceDesc → Nat × (Nat × Nat)
  | .Range index step => (index, (index * step, min ((index + 1) * step) chunkLen))

/-- `PieceData`: wire unit.  The payload's bytes never influence the
embedded control flow, so only its length is kept. -/
structure PieceData : Type where
  desc : PieceDesc
  dataLen : Nat
deriving DecidableEq, Repr

/-- Behaviour of a synchronous writer obtained from a `RawCache`:
`seekRes pos` is the outcome of `seek(SeekFrom::Start(pos))` and
`writeRes len` the outcome of writing a `len`-byte slice (the count
actually written, or an error). -/
structure SyncWriter : Type where
  seekRes : Nat → Except BuckyError Nat
  writeRes : Nat → Except BuckyError Nat

/-- Behaviour of a (sync or async) reader obtained from a `RawCache`:
`seekRes pos` is the outcome of seeking and `readRes len` the outcome of
reading into a `len`-byte slice (the count actually read, or an error). -/
structure SyncReader : Type where
  seekRes : Nat → Except BuckyError Nat
  readRes : Nat → Except BuckyError Nat

/-- The externally supplied `RawCache` contract consumed by the cache
layer: fallible acquisition of synchronous writer/reader views and of an
asynchronous reader view. -/
structure RawCache : Type where
  sync_writer : Except BuckyError SyncWriter
  sync_reader : Except BuckyError SyncReader
  async_reader : Except BuckyError SyncReader

/-- `StateImpl` of `ChunkStreamCache`: the write-once raw cache cell
(`OnceCell`, modelled as `Option`) and the income index queue. -/
structure StateImpl : Type where
  raw_cache : Option RawCache
  indices : IncomeIndexQueue

/-- A storage I/O action performed by `push_piece_data` on the raw
cache's synchronous writer. -/
inductive IOEvent : Type
  | seek (pos : Nat)
  | write (len : Nat)
deriving DecidableEq, Repr

namespace ChunkStreamCache

/-- `ChunkStreamCache::new(chunk)` — empty state, no raw cache
installed, fresh income queue (`stream.rs:45`). -/
def new (count : Nat) : StateImpl :=
  ⟨none, IncomeIndexQueue.new count⟩

/-- `ChunkStreamCache::load` — the body in this snapshot of the source is
`unimplemented!()` (`stream.rs:55`), which panics unconditionally on
every call; modelled as `none` (abnormal termination). -/
def load (st : StateImpl) (finished : Bool) (raw_cache : RawCache) : Option StateImpl :=
  let _ := st
  let _ := finished
  let _ := raw_cache
  none

/-- `ChunkStreamCache::require_index(desc)` (`stream.rs:67`). -/
def require_index (st : StateImpl) (s e : Nat) (step : Int) :
    Option (Option Nat × Option (List (Nat × Nat))) :=
  st.indices.require s e step

/-- `ChunkStreamCache::exists(index)` (`stream.rs:92`). -/
def existsIdx (st : StateImpl) (i : Nat) : Bool :=
  st.indices.existsIdx i

/-- `ChunkStreamCache::push_piece_data(piece)` (`stream.rs:72`): compute
the byte range, reserve via `try_push`, and when the reservation went
through seek the synchronous writer to the range start, write exactly
`range.len()` bytes, and commit via `push`.  The result is the outcome
together with the updated state and the storage I/O performed; `none` is
a panic (raw cache not installed, or `piece.data` shorter than the
slice `[..len]`). -/
def push_piece_data (chunkLen : Nat) (st : StateImpl) (piece : PieceData) :
    Option (Except BuckyError PushIndexResult × StateImpl × List IOEvent) :=
  let (index, range) := piece.desc.stream_piece_range chunkLen
  let (index_result, indices1) := st.indices.try_push index (index + 1)
  if !index_result.pushed then
    some (.ok index_result, st, [])
  else
    let st1 : StateImpl := { st with indices := indices1 }
    match st.raw_cache with
    | none => none
    | some rc =>
      match rc.sync_writer with
      | .error e => some (.error e, st1, [])
      | .ok writer =>
        match writer.seekRes range.1 with
        | .error e => some (.error e, st1, [.seek range.1])
        | .ok pos =>
          if range.1 = pos then
            let len := range.2 - range.1
            if piece.dataLen < len then
              none
            else
              match writer.writeRes len with
              | .error e => some (.error e, st1, [.seek range.1, .write len])
              | .ok n =>
                if len = n then
                  let (res, indices2) := indices1.push index (index + 1)
                  some (.ok res, { st1 with indices := indices2 },
                    [.seek range.1, .write len])
                else
                  some (.error ⟨.InvalidInput, "len mismatch"⟩, st1,
                    [.seek range.1, .write len])
          else
            some (.error ⟨.InvalidInput, "len mismatch"⟩, st1, [.seek range.1])

/-- `ChunkStreamCache::sync_try_read(piece_desc, buffer)`
(`stream.rs:121`): existence check, then an exact-length read through the
synchronous reader.  `bufAvail` is the length of the caller's buffer
slice; a read of more than `bufAvail` bytes would panic on the slice
`[..len]`, modelled as `none`. -/
def sync_try_read (chunkLen : Nat) (st : StateImpl) (piece_desc : PieceDesc)
    (bufAvail : Nat) : Option (Except BuckyError Nat) :=
  let (index, range) := piece_desc.stream_piece_range chunkLen
  if !(existsIdx st index) then
    some (.error ⟨.NotFound, "not exists"⟩)
  else
    match st.raw_cache with
    | none => none
    | some rc =>
      match rc.sync_reader with
      | .error e => some (.error e)
      | .ok reader =>
        match reader.seekRes range.1 with
        | .error e => some (.error e)
        | .ok pos =>
          if range.1 = pos then
            let len := range.2 - range.1
            if bufAvail < len then
              none
            else
              match reader.readRes len with
              | .error e => some (.error e)
              | .ok n => if len = n then some (.ok len) else
                  some (.error ⟨.InvalidInput, "len mismatch"⟩)
          else
            some (.error ⟨.InvalidInput, "len mismatch"⟩)

/-- `ChunkStreamCache::async_try_read(piece_desc, buffer)`
(`stream.rs:141`): same contract as `sync_try_read`, through the
asynchronous reader view. -/
def async_try_read (chunkLen : Nat) (st : StateImpl) (piece_desc : PieceDesc)
    (bufAvail : Nat) : Option (Except BuckyError Nat) :=
  let (index, range) := piece_desc.stream_piece_range chunkLen
  if !(existsIdx st index) then
    some (.error ⟨.NotFound, "not exists"⟩)
  else
    match st.raw_cache with
    | none => none
    | some rc =>
      match rc.async_reader with
      | .error e => some (.error e)
      | .ok reader =>
        match reader.seekRes range.1 with
        | .error e => some (.error e)
        | .ok pos =>
          if range.1 = pos then
            let len := range.2 - range.1
            if bufAvail < len then
              none
            else
              match reader.readRes len with
              | .error e => some (.error e)
              | .ok n => if len = n then some (.ok len) else
                  some (.error ⟨.InvalidInput, "len mismatch"⟩)
          else
            some (.error ⟨.InvalidInput, "len mismatch"⟩)

end ChunkStreamCache

/-- `ChunkEncodeDesc` (stream variant): the session window
`[start, end)` of piece indices together with the signed `step`
(direction and piece size). -/
inductive ChunkEncodeDesc : Type
  | Stream (start : Nat) (endIdx : Nat) (step : Int)
deriving DecidableEq, Repr

/-- Modelled from the spec: `ChunkEncodeDesc::unwrap_as_stream()` yields
the `(start, end, step)` triple. -/
def ChunkEncodeDesc.unwrap_as_stream : ChunkEncodeDesc → Nat × Nat × Int
  | .Stream s e step => (s, e, step)

namespace StreamDecoder

/-- `StreamDecoder::push_piece_data(piece)` (`stream.rs:211`): reject a
piece whose index is outside the decoder's configured `[start, end)`
without touching the cache; otherwise delegate to the cache, and when the
piece was newly committed re-query `require_index` over the decoder's own
window to decide `finished`. -/
def push_piece_data (chunkLen : Nat) (desc : ChunkEncodeDesc) (st : StateImpl)
    (piece : PieceData) :
    Option (Except BuckyError PushIndexResult × StateImpl × List IOEvent) :=
  let (start, endIdx, step) := desc.unwrap_as_stream
  let (index, _) := piece.desc.unwrap_as_stream
  if index < start ∨ index ≥ endIdx then
    some (.ok ⟨false, false, false⟩, st, [])
  else
    match ChunkStreamCache.push_piece_data chunkLen st piece with
    | none => none
    | some (.error e, st', ev) => some (.error e, st', ev)
    | some (.ok result, st', ev) =>
      if result.pushed then
        if (ChunkStreamCache.require_index st' start endIdx step).isNone then
          some (.ok ⟨true, false, true⟩, st', ev)
        else
          some (.ok result, st', ev)
      else
        some (.ok result, st', ev)

end StreamDecoder

/-- Modelled from the spec: the send-side `OutcomeIndexQueue` (its source
is not part of this snapshot).  An ordered cursor over `[start, end)`
stepped by `step` (negative `step` iterates in reverse); `remaining`
holds the indices still to send, in iteration order. -/
structure OutcomeIndexQueue : Type where
  start : Nat
  endIdx : Nat
  step : Int
  remaining : List Nat
deriving DecidableEq, Repr

namespace OutcomeIndexQueue

/-- The iteration order over `[s, e)` for a given signed step. -/
def seqOf (s e : Nat) (step : Int) : List Nat :=
  if 0 ≤ step then List.range' s (e - s) else (List.range' s (e - s)).reverse

/-- Modelled from the spec: `OutcomeIndexQueue::new(start, end, step)` —
the full window pending. -/
def new (s e : Nat) (step : Int) : OutcomeIndexQueue :=
  ⟨s, e, step, seqOf s e step⟩

/-- Modelled from the spec: `next()` — peek the cursor head. -/
def next (q : OutcomeIndexQueue) : Option Nat :=
  q.remaining.head?

/-- Modelled from the spec: `pop_next()` — consume the cursor head. -/
def pop_next (q : OutcomeIndexQueue) : OutcomeIndexQueue :=
  { q with remaining := q.remaining.tail }

/-- Modelled from the spec: `reset()` — rewind the cursor to the
configured bounds. -/
def reset (q : OutcomeIndexQueue) : OutcomeIndexQueue :=
  { q with remaining := seqOf q.start q.endIdx q.step }

end OutcomeIndexQueue

/-- `EncoderPendingState` (`stream.rs:241`): idle, an async read in
flight for a piece, or a completed async read (the payload's bytes never
influence control flow, so `Waiting` carries the payload length). -/
inductive EncoderPendingState : Type
  | None
  | Pending (desc : PieceDesc)
  | Waiting (desc : PieceDesc) (result : Except BuckyError Nat)
deriving Repr

/-- `EncoderStateImpl` (`stream.rs:248`). -/
structure EncoderStateImpl : Type where
  pending : EncoderPendingState
  indices : OutcomeIndexQueue
deriving Repr

/-- Modelled from the spec: `PieceData::encode_header` writes a
deterministic self-describing header into the buffer and returns the
remaining buffer; `hdrSize` is the header's encoded size (an internal
protocol detail), and encoding fails when the buffer cannot hold it. -/
def PieceData.encode_header (bufLen hdrSize : Nat) : Except BuckyError Nat :=
  if hdrSize ≤ bufLen then .ok (bufLen - hdrSize)
  else .error ⟨.Other 1, "buffer too small"⟩

namespace StreamEncoder

/-- `StreamEncoder::new` (`stream.rs:271`): idle state, outcome queue
over the desc's bounds. -/
def new (desc : ChunkEncodeDesc) : EncoderStateImpl :=
  let (start, endIdx, step) := desc.unwrap_as_stream
  ⟨.None, OutcomeIndexQueue.new start endIdx step⟩

/-- `StreamEncoder::next_piece(session_id, buf)` (`stream.rs:320`).
Arguments: `chunkLen` the chunk's byte length, `hdrSize` the piece
header's encoded size, `bufLen` the caller's buffer length, `desc` the
encoder's `ChunkEncodeDesc`, `cache` the shared cache state, `st` the
encoder state.  The result is the byte count written (0 meaning "nothing
ready yet") or an error, together with the updated encoder state; `none`
is a panic (raw cache missing, or a slice out of bounds). -/
def next_piece (chunkLen hdrSize bufLen : Nat) (desc : ChunkEncodeDesc)
    (cache : StateImpl) (st : EncoderStateImpl) :
    Option (Except BuckyError Nat × EncoderStateImpl) :=
  match st.pending with
  | .Pending _ => some (.ok 0, st)
  | .Waiting piece_desc result =>
    let st1 : EncoderStateImpl := { st with pending := .None }
    match result with
    | .ok payloadLen =>
      let (index, _) := piece_desc.unwrap_as_stream
      if st1.indices.next = some index then
        let st2 : EncoderStateImpl := { st1 with indices := st1.indices.pop_next }
        match PieceData.encode_header bufLen hdrSize with
        | .error e => some (.error e, st2)
        | .ok remaining =>
          if remaining < payloadLen then
            none
          else
            some (.ok (hdrSize + payloadLen), st2)
      else
        some (.ok 0, st1)
    | .error e => some (.error e, st1)
  | .None =>
    match st.indices.next with
    | none => some (.ok 0, st)
    | some index =>
      if ChunkStreamCache.existsIdx cache index then
        let (_, _, step) := desc.unwrap_as_stream
        let piece_desc := PieceDesc.Range index step.natAbs
        match PieceData.encode_header bufLen hdrSize with
        | .error e => some (.error e, st)
        | .ok remaining =>
          match ChunkStreamCache.sync_try_read chunkLen cache piece_desc remaining with
          | none => none
          | some (.ok len) =>
            some (.ok (hdrSize + len), { st with indices := st.indices.pop_next })
          | some (.error e) =>
            if e.code = .UnSupport then
              some (.ok 0, { st with pending := .Pending piece_desc })
            else
              some (.error e, st)
      else
        some (.ok 0, st)

/-- `StreamEncoder::async_next_piece(piece_desc)` (`stream.rs:292`): the
background task reads the piece through the asynchronous path (into an
`mtu`-byte buffer) and, when the encoder is still pending on the same
piece, stores the outcome in `Waiting`; otherwise the result is
discarded. -/
def async_next_piece (chunkLen mtu : Nat) (cache : StateImpl)
    (piece_desc : PieceDesc) (st : EncoderStateImpl) : Option EncoderStateImpl :=
  match ChunkStreamCache.async_try_read chunkLen cache piece_desc mtu with
  | none => none
  | some result =>
    match st.pending with
    | .Pending pending_desc =>
      if pending_desc = piece_desc then
        some { st with pending := .Waiting piece_desc result }
      else
        some st
    | _ => some st

/-- `StreamEncoder::reset()` (`stream.rs:393`): rewind the outcome
cursor; drop an in-flight `Pending`/`Waiting` piece whose index no longer
matches the new cursor head. -/
def reset (st : EncoderStateImpl) : EncoderStateImpl :=
  let indices := st.indices.reset
  let st1 : EncoderStateImpl := { st with indices := indices }
  match st1.pending with
  | .Pending next_desc =>
    let (index, _) := next_desc.unwrap_as_stream
    if indices.next ≠ some index then
      { st1 with pending := .None }
    else
      st1
  | .Waiting next_desc _ =>
    let (index, _) := next_desc.unwrap_as_stream
    if indices.next ≠ some index then
      { st1 with pending := .None }
    else
      st1
  | _ => st1

/-- `StreamEncoder::merge(max_index, lost_index)` (`stream.rs:414`): the
body is identical to `reset` and ignores both arguments. -/
def merge (max_index : Nat) (lost_index : List (Nat × Nat))
    (st : EncoderStateImpl) : EncoderStateImpl :=
  let _ := max_index
  let _ := lost_index
  let indices := st.indices.reset
  let st1 : EncoderStateImpl := { st with indices := indices }
  match st1.pending with
  | .Pending next_desc =>
    let (index, _) := next_desc.unwrap_as_stream
    if indices.next ≠ some index then
      { st1 with pending := .None }
    else
      st1
  | .Waiting next_desc _ =>
    let (index, _) := next_desc.unwrap_as_stream
    if indices.next ≠ some index then
      { st1 with pending := .None }
    else
      st1
  | _ => st1

end StreamEncoder

/-- `DownloadTaskControlState`. -/
inductive DownloadTaskControlState : Type
  | Normal
  | Canceled
deriving DecidableEq, Repr

/-- `TaskStateImpl` of `ChunkTask` (`download/chunk.rs:24`):
`Downloading(IncreaseId, ChunkCache)`, `Error`, `Finished(ChunkCache)`.
The `ChunkCache` handle carries no state the claims observe, so only the
context-registration id is kept. -/
inductive TaskStateImpl : Type
  | Downloading (id : Nat)
  | Error (e : BuckyError)
  | Finished
deriving DecidableEq, Repr

/-- `ControlStateImpl` (`download/chunk.rs:30`).  Modelled from the spec:
the `StateWaiter` inside `Normal` is the set of waiters registered by
`wait_user_canceled`, kept as a list of waiter ids; `transfer()` takes
them all out and `wake()` wakes the transferred set. -/
inductive ControlStateImpl : Type
  | Normal (waiters : List Nat)
  | Canceled
deriving DecidableEq, Repr

/-- The lock-guarded `StateImpl` of `ChunkTask` (`download/chunk.rs:35`). -/
structure ChunkTaskState : Type where
  control_state : ControlStateImpl
  task_state : TaskStateImpl
deriving DecidableEq, Repr

/-- The externally visible effects of one `cancel()` call: the waiters
woken (via `transfer()` + `wake()`) and the download-context id
deregistered (via `remove_context`), if any. -/
structure CancelEffects : Type where
  woken : List Nat
  deregistered : Option Nat
deriving DecidableEq, Repr

namespace ChunkTask

/-- `ChunkTask::new` (`download/chunk.rs:56`): begins `Downloading` with
the freshly added context id, control state `Normal` with no waiters. -/
def new (id : Nat) : ChunkTaskState :=
  ⟨.Normal [], .Downloading id⟩

/-- `ChunkTask::control_state()` (`download/chunk.rs:97`). -/
def control_state (st : ChunkTaskState) : DownloadTaskControlState :=
  match st.control_state with
  | .Normal _ => .Normal
  | .Canceled => .Canceled

/-- `ChunkTask::cancel()` (`download/chunk.rs:182`): transfer the waiters
and flip the control state to `Canceled` when it was `Normal`; flip the
task state to `Error(UserCanceled)` and deregister the context when it
was `Downloading`; wake the transferred waiters; always return
`Ok(Canceled)`. -/
def cancel (st : ChunkTaskState) :
    ChunkTaskState × CancelEffects × Except BuckyError DownloadTaskControlState :=
  let (waiters, control') :=
    match st.control_state with
    | .Normal ws => (some ws, ControlStateImpl.Canceled)
    | .Canceled => (none, ControlStateImpl.Canceled)
  let (dereg, task') :=
    match st.task_state with
    | .Downloading id =>
      (some id, TaskStateImpl.Error ⟨.UserCanceled, "cancel invoked"⟩)
    | ts => (none, ts)
  (⟨control', task'⟩, ⟨waiters.getD [], dereg⟩, .ok .Canceled)

/-- `ChunkTask::wait_user_canceled()` (`download/chunk.rs:217`):
register a new waiter when the control state is `Normal` (the caller then
suspends until woken); return immediately when already `Canceled`.  The
returned value is always a `UserCanceled` error. -/
def wait_user_canceled (w : Nat) (st : ChunkTaskState) : ChunkTaskState × BuckyError :=
  match st.control_state with
  | .Normal ws => (⟨.Normal (ws ++ [w]), st.task_state⟩, ⟨.UserCanceled, ""⟩)
  | .Canceled => (st, ⟨.UserCanceled, ""⟩)

/-- The state-mutating operations of the `ChunkTask` interface; every
other method of the source (`state`, `control_state`, `cur_speed`,
`history_speed`, `calc_speed`, `drain_score`, `on_drain`,
`priority_score`, `sub_task`) only reads the lock-guarded state. -/
inductive TaskOp : Type
  | cancelOp
  | waitUserCanceled (w : Nat)
deriving DecidableEq, Repr

/-- Apply one operation to the task state. -/
def applyOp (op : TaskOp) (st : ChunkTaskState) : ChunkTaskState :=
  match op with
  | .cancelOp => (cancel st).1
  | .waitUserCanceled w => (wait_user_canceled w st).1

/-- Apply a sequence of operations to the task state. -/
def applyOps (ops : List TaskOp) (st : ChunkTaskState) : ChunkTaskState :=
  ops.foldl (fun s op => applyOp op s) st

end ChunkTask

/-- Modelled from the spec: `HistorySpeed`'s smoothing configuration.
Its contents are opaque to the claims, which only compare and propagate
configurations, so it is modelled as a tag. -/
structure HistorySpeedConfig : Type where
  tag : Nat
deriving DecidableEq, Repr

/-- Modelled from the spec: `HistorySpeed` — exponentially smoothed
throughput estimator.  `new(initial, config)` seeds the estimate with
`initial`; `average()` reports the current smoothed estimate.  The
smoothing updates are not observed by the claims, so the state is the
current estimate together with the configuration. -/
structure HistorySpeed : Type where
  current : Nat
  configuration : HistorySpeedConfig
deriving DecidableEq, Repr

/-- Modelled from the spec: `HistorySpeed::new(initial, config)`. -/
def HistorySpeed.new (initial : Nat) (cfg : HistorySpeedConfig) : HistorySpeed :=
  ⟨initial, cfg⟩

/-- Modelled from the spec: `HistorySpeed::average()`. -/
def HistorySpeed.average (h : HistorySpeed) : Nat :=
  h.current

/-- Modelled from the spec: `HistorySpeed::config()`. -/
def HistorySpeed.config (h : HistorySpeed) : HistorySpeedConfig :=
  h.configuration

/-- A `Channel` as `create_channel` observes it: the remote peer id and
the two `HistorySpeed`s passed to `Channel::new` (`manager.rs:87`). -/
structure Channel : Type where
  remote : Nat
  download_speed : HistorySpeed
  upload_speed : HistorySpeed
deriving DecidableEq, Repr

/-- The lock-guarded `Channels` registry of `ChannelManager`
(`manager.rs:23`); `entries` models the `BTreeMap<DeviceId, Channel>`
as an association list with distinct keys. -/
structure Channels : Type where
  download_history_speed : HistorySpeed
  download_cur_speed : Nat
  upload_history_speed : HistorySpeed
  upload_cur_speed : Nat
  entries : List (Nat × Channel)
deriving DecidableEq, Repr

namespace ChannelManager

/-- `ChannelManager::channel_of(remote)` (`manager.rs:72`). -/
def channel_of (chs : Channels) (remote : Nat) : Option Channel :=
  chs.entries.lookup remote

/-- `ChannelManager::create_channel(remote_const)` (`manager.rs:76`):
create the tunnel container (whose failure propagates), then return the
registered channel unchanged when one exists; otherwise seed a new
channel's download/upload `HistorySpeed` with the historical average over
`channel_count + 1` — the source passes
`channels.download_history_speed.config()` for BOTH sides
(`manager.rs:91` and `manager.rs:92`) — and register it. -/
def create_channel (tunnelResult : Except BuckyError Unit) (chs : Channels)
    (remote : Nat) : Except BuckyError (Channel × Channels) :=
  match tunnelResult with
  | .error e => .error e
  | .ok _ =>
    match chs.entries.lookup remote with
    | some c => .ok (c, chs)
    | none =>
      let initial_download_speed :=
        chs.download_history_speed.average / (chs.entries.length + 1)
      let initial_upload_speed :=
        chs.upload_history_speed.average / (chs.entries.length + 1)
      let channel : Channel :=
        ⟨remote,
          HistorySpeed.new initial_download_speed chs.download_history_speed.config,
          HistorySpeed.new initial_upload_speed chs.download_history_speed.config⟩
      .ok (channel, { chs with entries := chs.entries ++ [(remote, channel)] })

end ChannelManager

/-! ## Concrete raw-cache behaviours used by the witnesses -/

/-- A well-behaved writer: seeks land where requested, writes complete. -/
def okWriter : SyncWriter :=
  ⟨fun pos => .ok pos, fun len => .ok len⟩

/-- A writer whose seek lands one byte past the requested position. -/
def badSeekWriter : SyncWriter :=
  ⟨fun pos => .ok (pos + 1), fun len => .ok len⟩

/-- A writer that writes one byte short. -/
def shortWriter : SyncWriter :=
  ⟨fun pos => .ok pos, fun len => .ok (len - 1)⟩

/-- A well-behaved reader: seeks land where requested, reads complete. -/
def okReader : SyncReader :=
  ⟨fun pos => .ok pos, fun len => .ok len⟩

/-- A fully well-behaved raw cache. -/
def okCache : RawCache :=
  ⟨.ok okWriter, .ok okReader, .ok okReader⟩

/-- A raw cache whose writer seeks land off target. -/
def badSeekCache : RawCache :=
  ⟨.ok badSeekWriter, .ok okReader, .ok okReader⟩

/-- A raw cache whose writer writes short. -/
def shortWriteCache : RawCache :=
  ⟨.ok shortWriter, .ok okReader, .ok okReader⟩

/-- A raw cache that refuses synchronous reads with `UnSupport` to force
the asynchronous path. -/
def asyncOnlyCache : RawCache :=
  ⟨.ok okWriter, .error ⟨.UnSupport, "use async"⟩, .ok okReader⟩

/-- A raw cache whose synchronous reads fail with a genuine I/O error. -/
def failReadCache : RawCache :=
  ⟨.ok okWriter, .error ⟨.Other 5, "io"⟩, .ok okReader⟩

/-! ## Theorems -/

/-- C7: `StreamEncoder::merge(max_index, lost_index)` performs exactly
the same state transition as `StreamEncoder::reset()`: both rewind the
outcome cursor and clear an in-flight `Pending`/`Waiting` piece whose
index differs from the new queue head; `merge`'s two arguments have no
effect on the resulting state. -/
theorem C7_merge_eq_reset (max_index : Nat) (lost_index : List (Nat × Nat))
    (st : EncoderStateImpl) :
    StreamEncoder.merge max_index lost_index st = StreamEncoder.reset st :=
  rfl

/-- C4: in this snapshot `ChunkStreamCache::load` is `unimplemented!()`,
so already the FIRST call on a freshly created cache panics instead of
installing the supplied `RawCache` and returning normally — evaluated
here on a fresh 4-piece cache and an arbitrary raw cache. -/
theorem C4_first_load_panics (finished : Bool) (rc : RawCache) :
    ChunkStreamCache.load (ChunkStreamCache.new 4) finished rc = none :=
  rfl

/-- C3: a piece whose index lies outside the decoder's configured
`[start, end)` window is answered with
`{valid:false, exists:false, finished:false}`, the cache state is left
untouched and no storage I/O happens. -/
theorem C3_out_of_window_rejected (chunkLen a b : Nat) (stp : Int)
    (st : StateImpl) (index pstep dataLen : Nat)
    (h : index < a ∨ index ≥ b) :
    StreamDecoder.push_piece_data chunkLen (.Stream a b stp) st
      ⟨.Range index pstep, dataLen⟩ = some (.ok ⟨false, false, false⟩, st, []) := by
  simp only [StreamDecoder.push_piece_data, ChunkEncodeDesc.unwrap_as_stream,
    PieceDesc.unwrap_as_stream]
  rw [if_pos h]

/-- Witness for C3: a piece with index 7 pushed at a decoder configured
for `[0, 4)` is rejected without touching the cache. -/
theorem C3_out_of_window_rejected_witness :
    StreamDecoder.push_piece_data 1024 (.Stream 0 4 256) (ChunkStreamCache.new 4)
      ⟨.Range 7 256, 256⟩ = some (.ok ⟨false, false, false⟩, ChunkStreamCache.new 4, []) :=
  C3_out_of_window_rejected 1024 0 4 256 (ChunkStreamCache.new 4) 7 256 256
    (Or.inr (by decide))

/-- C10: in `create_channel` the upload `HistorySpeed` of a newly created
channel is constructed with the manager's DOWNLOAD history-speed
configuration (`manager.rs:92`), so whenever the two configurations
differ the new channel's upload smoothing parameters come from the
download side. -/
theorem C10_upload_config_from_download_side (chs : Channels) (remote : Nat)
    (hn : chs.entries.lookup remote = none)
    (hd : chs.download_history_speed.config ≠ chs.upload_history_speed.config) :
    ∃ c chs', ChannelManager.create_channel (.ok ()) chs remote = .ok (c, chs') ∧
      c.upload_speed.config = chs.download_history_speed.config ∧
      c.upload_speed.config ≠ chs.upload_history_speed.config := by
  simp only [ChannelManager.create_channel, hn]
  exact ⟨_, _, rfl, rfl, hd⟩

/-- Witness for C10: a manager whose download config tag is 0 and upload
config tag is 1 creates a channel whose upload smoothing uses tag 0. -/
theorem C10_upload_config_from_download_side_witness :
    ∃ c chs', ChannelManager.create_channel (.ok ())
        ⟨⟨100, ⟨0⟩⟩, 0, ⟨200, ⟨1⟩⟩, 0, []⟩ 5 = .ok (c, chs') ∧
      c.upload_speed.config = HistorySpeedConfig.mk 0 ∧
      c.upload_speed.config ≠ HistorySpeedConfig.mk 1 :=
  C10_upload_config_from_download_side ⟨⟨100, ⟨0⟩⟩, 0, ⟨200, ⟨1⟩⟩, 0, []⟩ 5
    rfl (by decide)

/-- C9: `create_channel` is an idempotent get-or-create: with a
registered channel it returns that channel and leaves the registry
unchanged; otherwise the new channel's initial download (resp. upload)
speed estimate is the manager's download (resp. upload) historical
average divided by `channel_count + 1`, with `channel_count` the number
of channels registered before the call. -/
theorem C9_create_channel_get_or_create (chs : Channels) (remote : Nat) :
    (∀ c, chs.entries.lookup remote = some c →
      ChannelManager.create_channel (.ok ()) chs remote = .ok (c, chs)) ∧
    (chs.entries.lookup remote = none →
      ∃ c, ChannelManager.create_channel (.ok ()) chs remote =
          .ok (c, { chs with entries := chs.entries ++ [(remote, c)] }) ∧
        c.download_speed.average =
          chs.download_history_speed.average / (chs.entries.length + 1) ∧
        c.upload_speed.average =
          chs.upload_history_speed.average / (chs.entries.length + 1)) := by
  constructor
  · intro c hc
    simp only [ChannelManager.create_channel, hc]
  · intro hn
    simp only [ChannelManager.create_channel, hn]
    exact ⟨_, rfl, rfl, rfl⟩

/-- Witness for C9: a manager with one registered channel (peer 5,
download average 100, upload average 60): `create_channel` for peer 5
returns it unchanged, and `create_channel` for peer 9 seeds the new
channel with `100 / 2 = 50` download and `60 / 2 = 30` upload. -/
theorem C9_create_channel_get_or_create_witness :
    (ChannelManager.create_channel (.ok ())
        ⟨⟨100, ⟨0⟩⟩, 0, ⟨60, ⟨1⟩⟩, 0, [(5, ⟨5, ⟨7, ⟨0⟩⟩, ⟨3, ⟨0⟩⟩⟩)]⟩ 5 =
      .ok (⟨5, ⟨7, ⟨0⟩⟩, ⟨3, ⟨0⟩⟩⟩,
        ⟨⟨100, ⟨0⟩⟩, 0, ⟨60, ⟨1⟩⟩, 0, [(5, ⟨5, ⟨7, ⟨0⟩⟩, ⟨3, ⟨0⟩⟩⟩)]⟩)) ∧
    (∃ c, ChannelManager.create_channel (.ok ())
          ⟨⟨100, ⟨0⟩⟩, 0, ⟨60, ⟨1⟩⟩, 0, [(5, ⟨5, ⟨7, ⟨0⟩⟩, ⟨3, ⟨0⟩⟩⟩)]⟩ 9 =
        .ok (c, ⟨⟨100, ⟨0⟩⟩, 0, ⟨60, ⟨1⟩⟩, 0,
          [(5, ⟨5, ⟨7, ⟨0⟩⟩, ⟨3, ⟨0⟩⟩⟩), (9, c)]⟩) ∧
      c.download_speed.average = 50 ∧ c.upload_speed.average = 30) := by
  constructor
  · exact (C9_create_channel_get_or_create
      ⟨⟨100, ⟨0⟩⟩, 0, ⟨60, ⟨1⟩⟩, 0, [(5, ⟨5, ⟨7, ⟨0⟩⟩, ⟨3, ⟨0⟩⟩⟩)]⟩ 5).1 _ rfl
  · obtain ⟨c, hc, hd, hu⟩ := (C9_create_channel_get_or_create
      ⟨⟨100, ⟨0⟩⟩, 0, ⟨60, ⟨1⟩⟩, 0, [(5, ⟨5, ⟨7, ⟨0⟩⟩, ⟨3, ⟨0⟩⟩⟩)]⟩ 9).2 rfl
    exact ⟨c, hc, hd, hu⟩

/-- Once the control state is `Canceled`, no single operation of the
`ChunkTask` interface brings it back to `Normal`. -/
theorem ChunkTask.applyOp_preserves_canceled (op : ChunkTask.TaskOp)
    (st : ChunkTaskState) (h : st.control_state = .Canceled) :
    (ChunkTask.applyOp op st).control_state = .Canceled := by
  cases op with
  | cancelOp => simp only [ChunkTask.applyOp, ChunkTask.cancel, h]
  | waitUserCanceled w => simp only [ChunkTask.applyOp, ChunkTask.wait_user_canceled, h]

/-- Once the control state is `Canceled`, no sequence of operations
brings it back to `Normal`. -/
theorem ChunkTask.applyOps_preserves_canceled (ops : List ChunkTask.TaskOp)
    (st : ChunkTaskState) (h : st.control_state = .Canceled) :
    (ChunkTask.applyOps ops st).control_state = .Canceled := by
  induction ops generalizing st with
  | nil => exact h
  | cons op ops ih => exact ih _ (ChunkTask.applyOp_preserves_canceled op st h)

/-- A `cancel()` on an already canceled task wakes no waiters. -/
theorem ChunkTask.cancel_wakes_none_of_canceled (st : ChunkTaskState)
    (h : st.control_state = .Canceled) :
    ((ChunkTask.cancel st).2.1).woken = [] := by
  simp only [ChunkTask.cancel, h, Option.getD_none]

/-- C8: starting from a running task (`Normal` control state with
waiters `ws`, `Downloading` with context id `id`), the first `cancel()`
returns `Ok(Canceled)`, flips the control state to `Canceled`, sets the
task state to `Error(UserCanceled)`, wakes exactly the registered waiters
and deregisters the download context; a second `cancel()` performs none
of these effects (no waiters woken, no deregistration, state unchanged)
while returning the same `Canceled` control state; and the control state
remains `Canceled` under every subsequent sequence of operations, under
which a further `cancel()` still wakes nothing. -/
theorem C8_cancel_idempotent_and_final (ws : List Nat) (id : Nat)
    (st : ChunkTaskState) (hc : st.control_state = .Normal ws)
    (ht : st.task_state = .Downloading id) :
    (ChunkTask.cancel st).2.2 = .ok .Canceled ∧
    ChunkTask.control_state (ChunkTask.cancel st).1 = .Canceled ∧
    ((ChunkTask.cancel st).1).task_state = .Error ⟨.UserCanceled, "cancel invoked"⟩ ∧
    ((ChunkTask.cancel st).2.1).woken = ws ∧
    ((ChunkTask.cancel st).2.1).deregistered = some id ∧
    ChunkTask.cancel (ChunkTask.cancel st).1 =
      ((ChunkTask.cancel st).1, ⟨[], none⟩, .ok .Canceled) ∧
    (∀ ops : List ChunkTask.TaskOp,
      ChunkTask.control_state
        (ChunkTask.applyOps ops (ChunkTask.cancel st).1) = .Canceled) ∧
    (∀ ops : List ChunkTask.TaskOp,
      ((ChunkTask.cancel
        (ChunkTask.applyOps ops (ChunkTask.cancel st).1)).2.1).woken = []) := by
  obtain ⟨cs, ts⟩ := st
  simp only at hc ht
  subst hc ht
  refine ⟨rfl, rfl, rfl, rfl, rfl, rfl, ?_, ?_⟩
  · intro ops
    have h := ChunkTask.applyOps_preserves_canceled ops
      (ChunkTask.cancel ⟨.Normal ws, .Downloading id⟩).1 rfl
    simp only [ChunkTask.control_state, h]
  · intro ops
    exact ChunkTask.cancel_wakes_none_of_canceled _
      (ChunkTask.applyOps_preserves_canceled ops
        (ChunkTask.cancel ⟨.Normal ws, .Downloading id⟩).1 rfl)

/-- Witness for C8: a running task with one registered waiter (3) and
context id 7. -/
theorem C8_cancel_idempotent_and_final_witness :
    (ChunkTask.cancel ⟨.Normal [3], .Downloading 7⟩).2.2 = .ok .Canceled ∧
    ChunkTask.control_state (ChunkTask.cancel ⟨.Normal [3], .Downloading 7⟩).1 = .Canceled ∧
    ((ChunkTask.cancel ⟨.Normal [3], .Downloading 7⟩).1).task_state =
      .Error ⟨.UserCanceled, "cancel invoked"⟩ ∧
    ((ChunkTask.cancel ⟨.Normal [3], .Downloading 7⟩).2.1).woken = [3] ∧
    ((ChunkTask.cancel ⟨.Normal [3], .Downloading 7⟩).2.1).deregistered = some 7 ∧
    ChunkTask.cancel (ChunkTask.cancel ⟨.Normal [3], .Downloading 7⟩).1 =
      ((ChunkTask.cancel ⟨.Normal [3], .Downloading 7⟩).1, ⟨[], none⟩, .ok .Canceled) ∧
    (∀ ops : List ChunkTask.TaskOp,
      ChunkTask.control_state
        (ChunkTask.applyOps ops
          (ChunkTask.cancel ⟨.Normal [3], .Downloading 7⟩).1) = .Canceled) ∧
    (∀ ops : List ChunkTask.TaskOp,
      ((ChunkTask.cancel
        (ChunkTask.applyOps ops
          (ChunkTask.cancel ⟨.Normal [3], .Downloading 7⟩).1)).2.1).woken = []) :=
  C8_cancel_idempotent_and_final [3] 7 ⟨.Normal [3], .Downloading 7⟩ rfl rfl

/-- Closed form of `try_push` on a singleton range `index..index+1`. -/
theorem IncomeIndexQueue.try_push_single (q : IncomeIndexQueue) (i : Nat) :
    q.try_push i (i + 1) =
      if i < q.count then
        if q.present i then (⟨true, true, false⟩, q)
        else (⟨true, false, false⟩, { q with reserved := q.reserved ++ [i] })
      else (⟨false, false, false⟩, q) := by
  have h1 : i + 1 - i = 1 := by omega
  by_cases hc : i < q.count
  · by_cases hp : q.present i
    · simp [IncomeIndexQueue.try_push, h1, hc, hp, Nat.lt_succ_self, Nat.succ_le_iff]
    · simp [IncomeIndexQueue.try_push, h1, hc, hp, Nat.lt_succ_self, Nat.succ_le_iff]
  · simp [IncomeIndexQueue.try_push, h1, hc, Nat.succ_le_iff]

/-- A singleton `try_push` reports `pushed` exactly when the index is in
the window and not yet present. -/
theorem IncomeIndexQueue.try_push_single_pushed_iff (q : IncomeIndexQueue) (i : Nat) :
    (q.try_push i (i + 1)).1.pushed = true ↔ (i < q.count ∧ q.present i = false) := by
  rw [IncomeIndexQueue.try_push_single]
  by_cases hc : i < q.count
  · by_cases hp : q.present i <;>
      simp [hc, hp, PushIndexResult.pushed]
  · simp [hc, PushIndexResult.pushed]

/-- A successful singleton reservation only adds the index to the
reserved set. -/
theorem IncomeIndexQueue.try_push_single_pushed_state (q : IncomeIndexQueue) (i : Nat)
    (h : (q.try_push i (i + 1)).1.pushed = true) :
    (q.try_push i (i + 1)).2 = { q with reserved := q.reserved ++ [i] } := by
  obtain ⟨hc, hp⟩ := (IncomeIndexQueue.try_push_single_pushed_iff q i).1 h
  rw [IncomeIndexQueue.try_push_single]
  simp [hc, hp]

/-- After a successful singleton reservation the index is still NOT
committed: reservation alone does not make it exist. -/
theorem IncomeIndexQueue.try_push_single_pushed_not_exists (q : IncomeIndexQueue)
    (i : Nat) (h : (q.try_push i (i + 1)).1.pushed = true) :
    ((q.try_push i (i + 1)).2).existsIdx i = false := by
  obtain ⟨hc, hp⟩ := (IncomeIndexQueue.try_push_single_pushed_iff q i).1 h
  rw [IncomeIndexQueue.try_push_single_pushed_state q i h]
  simp only [IncomeIndexQueue.present, Bool.or_eq_false_iff] at hp
  simpa [IncomeIndexQueue.existsIdx] using hp.2

/-- A singleton `push` commits the index: afterwards it exists. -/
theorem IncomeIndexQueue.push_single_commits (q : IncomeIndexQueue) (i : Nat) :
    ((q.push i (i + 1)).2).existsIdx i = true := by
  have h1 : i + 1 - i = 1 := by omega
  by_cases hc : q.committed.contains i <;>
    simp [IncomeIndexQueue.push, IncomeIndexQueue.existsIdx, h1, hc]

/-- `try_push` never reports `finished`. -/
theorem IncomeIndexQueue.try_push_finished_false (q : IncomeIndexQueue) (s e : Nat) :
    (q.try_push s e).1.finished = false := by
  unfold IncomeIndexQueue.try_push
  by_cases h1 : s < e ∧ e ≤ q.count
  · by_cases h2 : ((List.range' s (e - s)).all fun i => q.present i) <;> simp [h1, h2]
  · simp [h1]

/-- A `push` result always reports `pushed`. -/
theorem IncomeIndexQueue.push_pushed (q : IncomeIndexQueue) (s e : Nat) :
    ((q.push s e).1).pushed = true :=
  rfl

/-- The `finished` flag of a `push` result states that the queue's full
configured window `[0, count)` is committed afterwards. -/
theorem IncomeIndexQueue.push_finished_eq (q : IncomeIndexQueue) (s e : Nat) :
    (q.push s e).1.finished =
      ((List.range q.count).all fun i => ((q.push s e).2).existsIdx i) :=
  rfl

/-- `try_push` does not change the queue's window size. -/
theorem IncomeIndexQueue.try_push_count (q : IncomeIndexQueue) (s e : Nat) :
    (q.try_push s e).2.count = q.count := by
  unfold IncomeIndexQueue.try_push
  split
  · split <;> rfl
  · rfl

/-- `push` does not change the queue's window size. -/
theorem IncomeIndexQueue.push_count (q : IncomeIndexQueue) (s e : Nat) :
    (q.push s e).2.count = q.count :=
  rfl

/-- Before a successful singleton reservation the index was not
committed. -/
theorem IncomeIndexQueue.try_push_single_pushed_before_not_exists
    (q : IncomeIndexQueue) (i : Nat) (h : (q.try_push i (i + 1)).1.pushed = true) :
    q.existsIdx i = false := by
  obtain ⟨hc, hp⟩ := (IncomeIndexQueue.try_push_single_pushed_iff q i).1 h
  simp only [IncomeIndexQueue.present, Bool.or_eq_false_iff] at hp
  simpa [IncomeIndexQueue.existsIdx] using hp.2

/-- `require` answers `none` exactly when every index of the window
`[a, b)` is committed. -/
theorem IncomeIndexQueue.require_none_iff (q : IncomeIndexQueue) (a b : Nat)
    (stp : Int) :
    (q.require a b stp = none) ↔
      ∀ i ∈ List.range' a (b - a), q.committed.contains i = true := by
  unfold IncomeIndexQueue.require
  by_cases h : ((List.range' a (b - a)).filter fun i => !q.committed.contains i) = []
  · rw [if_pos h]
    constructor
    · intro _ i hi
      have := List.filter_eq_nil_iff.mp h i hi
      simpa using this
    · intro _
      rfl
  · rw [if_neg h]
    constructor
    · intro hc
      exact absurd hc (Option.some_ne_none _)
    · intro hall
      exfalso
      apply h
      rw [List.filter_eq_nil_iff]
      intro i hi
      rw [hall i hi]
      decide

/-- An `Ok`-valued `push_piece_data` either stopped at a failed
reservation (result of `try_push`, state untouched) or went through the
full reserve-write-commit path (result of `push`, index committed). -/
theorem ChunkStreamCache.push_piece_data_ok_cases (chunkLen : Nat) (st : StateImpl)
    (index pstep dataLen : Nat) (rc : PushIndexResult) (stc : StateImpl)
    (evc : List IOEvent)
    (h : ChunkStreamCache.push_piece_data chunkLen st ⟨.Range index pstep, dataLen⟩ =
      some (.ok rc, stc, evc)) :
    ((st.indices.try_push index (index + 1)).1.pushed = false ∧
      rc = (st.indices.try_push index (index + 1)).1 ∧ stc = st) ∨
    ((st.indices.try_push index (index + 1)).1.pushed = true ∧
      rc = ((st.indices.try_push index (index + 1)).2.push index (index + 1)).1 ∧
      stc = { st with
        indices := ((st.indices.try_push index (index + 1)).2.push index
          (index + 1)).2 }) := by
  simp only [ChunkStreamCache.push_piece_data, PieceDesc.stream_piece_range] at h
  by_cases hpu : (st.indices.try_push index (index + 1)).1.pushed
  · right
    refine ⟨hpu, ?_⟩
    simp only [hpu, Bool.not_true, Bool.false_eq_true, if_false] at h
    rcases hrc : st.raw_cache with _ | rcache
    · rw [hrc] at h
      dsimp only [] at h
      cases h
    · rw [hrc] at h
      dsimp only [] at h
      rcases hsw : rcache.sync_writer with e' | w
      · rw [hsw] at h
        dsimp only [] at h
        simp at h
      · rw [hsw] at h
        dsimp only [] at h
        rcases hsk : w.seekRes (index * pstep) with e' | pos
        · rw [hsk] at h
          dsimp only [] at h
          simp at h
        · rw [hsk] at h
          dsimp only [] at h
          by_cases hpos : index * pstep = pos
          · rw [if_pos hpos] at h
            by_cases hdl : dataLen < min ((index + 1) * pstep) chunkLen - index * pstep
            · rw [if_pos hdl] at h
              cases h
            · rw [if_neg hdl] at h
              rcases hwr : w.writeRes (min ((index + 1) * pstep) chunkLen -
                  index * pstep) with e' | n
              · rw [hwr] at h
                dsimp only [] at h
                simp at h
              · rw [hwr] at h
                dsimp only [] at h
                by_cases hn : min ((index + 1) * pstep) chunkLen - index * pstep = n
                · rw [if_pos hn] at h
                  simp only [Option.some.injEq, Prod.mk.injEq,
                    Except.ok.injEq] at h
                  exact ⟨h.1.symm, h.2.1.symm⟩
                · rw [if_neg hn] at h
                  simp at h
          · rw [if_neg hpos] at h
            simp at h
  · left
    have hpu' : (st.indices.try_push index (index + 1)).1.pushed = false := by
      simpa using hpu
    simp only [hpu', Bool.not_false, if_true] at h
    simp only [Option.some.injEq, Prod.mk.injEq, Except.ok.injEq] at h
    exact ⟨hpu', h.1.symm, h.2.1.symm⟩

/-- C1: `ChunkStreamCache::push_piece_data` first reserves the piece's
index via `try_push`; a failed reservation is returned immediately with
no storage I/O; otherwise the synchronous writer is sought to the
range start and exactly `range.len()` bytes are written — a seek-position
or byte-count mismatch yields `InvalidInput` with the index left
uncommitted — and a successful write commits the index via `push` and
returns that result. -/
theorem C1_push_piece_data_reserve_then_commit (chunkLen : Nat) (st : StateImpl)
    (index pstep dataLen : Nat) :
    ((st.indices.try_push index (index + 1)).1.pushed = false →
      ChunkStreamCache.push_piece_data chunkLen st ⟨.Range index pstep, dataLen⟩ =
        some (.ok (st.indices.try_push index (index + 1)).1, st, [])) ∧
    (∀ rc w, st.raw_cache = some rc → rc.sync_writer = .ok w →
      (st.indices.try_push index (index + 1)).1.pushed = true →
      w.seekRes (index * pstep) = .ok (index * pstep) →
      min ((index + 1) * pstep) chunkLen - index * pstep ≤ dataLen →
      w.writeRes (min ((index + 1) * pstep) chunkLen - index * pstep) =
        .ok (min ((index + 1) * pstep) chunkLen - index * pstep) →
      ChunkStreamCache.push_piece_data chunkLen st ⟨.Range index pstep, dataLen⟩ =
        some (.ok (((st.indices.try_push index (index + 1)).2.push index (index + 1)).1),
          { st with
            indices := ((st.indices.try_push index (index + 1)).2.push index (index + 1)).2 },
          [.seek (index * pstep),
            .write (min ((index + 1) * pstep) chunkLen - index * pstep)]) ∧
      (((st.indices.try_push index (index + 1)).2.push index (index + 1)).2).existsIdx
          index = true) ∧
    (∀ rc w pos, st.raw_cache = some rc → rc.sync_writer = .ok w →
      (st.indices.try_push index (index + 1)).1.pushed = true →
      w.seekRes (index * pstep) = .ok pos → index * pstep ≠ pos →
      ChunkStreamCache.push_piece_data chunkLen st ⟨.Range index pstep, dataLen⟩ =
        some (.error ⟨.InvalidInput, "len mismatch"⟩,
          { st with indices := (st.indices.try_push index (index + 1)).2 },
          [.seek (index * pstep)]) ∧
      ((st.indices.try_push index (index + 1)).2).existsIdx index = false) ∧
    (∀ rc w n, st.raw_cache = some rc → rc.sync_writer = .ok w →
      (st.indices.try_push index (index + 1)).1.pushed = true →
      w.seekRes (index * pstep) = .ok (index * pstep) →
      min ((index + 1) * pstep) chunkLen - index * pstep ≤ dataLen →
      w.writeRes (min ((index + 1) * pstep) chunkLen - index * pstep) = .ok n →
      min ((index + 1) * pstep) chunkLen - index * pstep ≠ n →
      ChunkStreamCache.push_piece_data chunkLen st ⟨.Range index pstep, dataLen⟩ =
        some (.error ⟨.InvalidInput, "len mismatch"⟩,
          { st with indices := (st.indices.try_push index (index + 1)).2 },
          [.seek (index * pstep),
            .write (min ((index + 1) * pstep) chunkLen - index * pstep)]) ∧
      ((st.indices.try_push index (index + 1)).2).existsIdx index = false) := by
  refine ⟨?_, ?_, ?_, ?_⟩
  · intro hp
    simp [ChunkStreamCache.push_piece_data, PieceDesc.stream_piece_range, hp]
  · intro rc w hrc hw hp hseek hlen hwrite
    refine ⟨?_, IncomeIndexQueue.push_single_commits _ index⟩
    simp [ChunkStreamCache.push_piece_data, PieceDesc.stream_piece_range, hp, hrc,
      hw, hseek, hwrite, Nat.not_lt.2 hlen]
  · intro rc w pos hrc hw hp hseek hne
    refine ⟨?_, IncomeIndexQueue.try_push_single_pushed_not_exists _ index hp⟩
    simp [ChunkStreamCache.push_piece_data, PieceDesc.stream_piece_range, hp, hrc,
      hw, hseek, hne]
  · intro rc w n hrc hw hp hseek hlen hwrite hne
    refine ⟨?_, IncomeIndexQueue.try_push_single_pushed_not_exists _ index hp⟩
    simp [ChunkStreamCache.push_piece_data, PieceDesc.stream_piece_range, hp, hrc,
      hw, hseek, hwrite, hne, Nat.not_lt.2 hlen]

/-- Witness for C1, over a 8-byte chunk in 4-byte pieces (piece index 0,
byte range `[0, 4)`): a failed reservation (empty 0-piece window) returns
immediately with no I/O; a clean write commits index 0; an off-target
seek and a short write each yield `InvalidInput` with index 0 left
uncommitted. -/
theorem C1_push_piece_data_reserve_then_commit_witness :
    (ChunkStreamCache.push_piece_data 8 ⟨none, ⟨0, [], []⟩⟩ ⟨.Range 0 4, 4⟩ =
      some (.ok ⟨false, false, false⟩, ⟨none, ⟨0, [], []⟩⟩, [])) ∧
    (ChunkStreamCache.push_piece_data 8 ⟨some okCache, ⟨2, [], []⟩⟩ ⟨.Range 0 4, 4⟩ =
      some (.ok ⟨true, false, false⟩, ⟨some okCache, ⟨2, [], [0]⟩⟩,
        [.seek 0, .write 4]) ∧
      (IncomeIndexQueue.mk 2 [] [0]).existsIdx 0 = true) ∧
    (ChunkStreamCache.push_piece_data 8 ⟨some badSeekCache, ⟨2, [], []⟩⟩
        ⟨.Range 0 4, 4⟩ =
      some (.error ⟨.InvalidInput, "len mismatch"⟩,
        ⟨some badSeekCache, ⟨2, [0], []⟩⟩, [.seek 0]) ∧
      (IncomeIndexQueue.mk 2 [0] []).existsIdx 0 = false) ∧
    (ChunkStreamCache.push_piece_data 8 ⟨some shortWriteCache, ⟨2, [], []⟩⟩
        ⟨.Range 0 4, 4⟩ =
      some (.error ⟨.InvalidInput, "len mismatch"⟩,
        ⟨some shortWriteCache, ⟨2, [0], []⟩⟩, [.seek 0, .write 4]) ∧
      (IncomeIndexQueue.mk 2 [0] []).existsIdx 0 = false) :=
  ⟨(C1_push_piece_data_reserve_then_commit 8 ⟨none, ⟨0, [], []⟩⟩ 0 4 4).1
      (by decide),
    (C1_push_piece_data_reserve_then_commit 8 ⟨some okCache, ⟨2, [], []⟩⟩ 0 4 4).2.1
      okCache okWriter rfl rfl (by decide) rfl (by decide) rfl,
    (C1_push_piece_data_reserve_then_commit 8
        ⟨some badSeekCache, ⟨2, [], []⟩⟩ 0 4 4).2.2.1
      badSeekCache badSeekWriter 1 rfl rfl (by decide) rfl (by decide),
    (C1_push_piece_data_reserve_then_commit 8
        ⟨some shortWriteCache, ⟨2, [], []⟩⟩ 0 4 4).2.2.2
      shortWriteCache shortWriter 3 rfl rfl (by decide) rfl (by decide) rfl
      (by decide)⟩

/-- C2: for a decoder configured with window `[a, b)` lying inside the
cache's piece space, an `Ok` result of `push_piece_data` carries
`finished = true` exactly when this call newly committed the piece's
index and afterwards the decoder's own `require` over `[a, b)` reports
nothing missing — i.e. on the call that commits the last missing index of
`[a, b)` and on no call before that. -/
theorem C2_decoder_finished_iff (chunkLen a b : Nat) (stp : Int) (st : StateImpl)
    (index pstep dataLen : Nat) (r : PushIndexResult) (st' : StateImpl)
    (ev : List IOEvent) (hwf : b ≤ st.indices.count)
    (hres : StreamDecoder.push_piece_data chunkLen (.Stream a b stp) st
      ⟨.Range index pstep, dataLen⟩ = some (.ok r, st', ev)) :
    r.finished = true ↔
      (a ≤ index ∧ index < b ∧ st.indices.existsIdx index = false ∧
        st'.indices.existsIdx index = true ∧
        st'.indices.require a b stp = none) := by
  simp only [StreamDecoder.push_piece_data, ChunkEncodeDesc.unwrap_as_stream,
    PieceDesc.unwrap_as_stream] at hres
  by_cases hwin : index < a ∨ index ≥ b
  · rw [if_pos hwin] at hres
    simp only [Option.some.injEq, Prod.mk.injEq, Except.ok.injEq] at hres
    obtain ⟨hr, hst, _⟩ := hres
    subst hr
    subst hst
    constructor
    · intro hf
      exact absurd hf (by decide)
    · rintro ⟨h1, h2, _⟩
      omega
  · rw [if_neg hwin] at hres
    push_neg at hwin
    obtain ⟨ha, hb⟩ := hwin
    rcases hcp : ChunkStreamCache.push_piece_data chunkLen st
        ⟨.Range index pstep, dataLen⟩ with _ | ⟨ex, stc, evc⟩
    · rw [hcp] at hres
      dsimp only [] at hres
      cases hres
    · rcases ex with e' | rcr
      · rw [hcp] at hres
        dsimp only [] at hres
        simp at hres
      · rw [hcp] at hres
        dsimp only [] at hres
        rcases ChunkStreamCache.push_piece_data_ok_cases chunkLen st index pstep
            dataLen rcr stc evc hcp with ⟨hpu, hrc', hstc⟩ | ⟨hpu, hrc', hstc⟩
        · have hrp : rcr.pushed = false := by rw [hrc']; exact hpu
          simp only [hrp, Bool.false_eq_true, if_false] at hres
          simp only [Option.some.injEq, Prod.mk.injEq, Except.ok.injEq] at hres
          obtain ⟨hr, hst, _⟩ := hres
          subst hr
          subst hst
          constructor
          · intro hf
            rw [hrc', IncomeIndexQueue.try_push_finished_false] at hf
            exact absurd hf (by decide)
          · rintro ⟨_, _, hb0, hc0, _⟩
            rw [hstc, hb0] at hc0
            exact absurd hc0 (by decide)
        · have hrp : rcr.pushed = true := by
            rw [hrc']
            exact IncomeIndexQueue.push_pushed _ _ _
          simp only [hrp, if_true] at hres
          by_cases hrq : (ChunkStreamCache.require_index stc a b stp).isNone
          · rw [if_pos hrq] at hres
            simp only [Option.some.injEq, Prod.mk.injEq, Except.ok.injEq] at hres
            obtain ⟨hr, hst, _⟩ := hres
            subst hr
            subst hst
            constructor
            · intro _
              refine ⟨ha, hb, ?_, ?_, ?_⟩
              · exact IncomeIndexQueue.try_push_single_pushed_before_not_exists
                  _ index hpu
              · rw [hstc]
                exact IncomeIndexQueue.push_single_commits _ index
              · exact Option.isNone_iff_eq_none.mp hrq
            · intro _
              rfl
          · rw [if_neg hrq] at hres
            simp only [Option.some.injEq, Prod.mk.injEq, Except.ok.injEq] at hres
            obtain ⟨hr, hst, _⟩ := hres
            subst hr
            subst hst
            constructor
            · intro hf
              exfalso
              apply hrq
              rw [hrc', IncomeIndexQueue.push_finished_eq] at hf
              rw [Option.isNone_iff_eq_none]
              show stc.indices.require a b stp = none
              rw [IncomeIndexQueue.require_none_iff]
              intro i hi
              rw [List.mem_range'_1] at hi
              have hib : i < b := by omega
              have hcnt : (st.indices.try_push index (index + 1)).2.count =
                  st.indices.count := IncomeIndexQueue.try_push_count _ _ _
              have hic : i < (st.indices.try_push index (index + 1)).2.count := by
                omega
              have hx := List.all_eq_true.mp hf i (List.mem_range.mpr hic)
              rw [hstc]
              simpa [IncomeIndexQueue.existsIdx] using hx
            · rintro ⟨_, _, _, _, hreq⟩
              exact absurd (Option.isNone_iff_eq_none.mpr hreq) hrq

/-- Witness for C2: an 8-byte chunk in two 4-byte pieces, decoder window
`[0, 2)`, cache already holding piece 1: pushing piece 0 commits the last
missing index, and the iff certifies `finished = true` for exactly that
reason. -/
theorem C2_decoder_finished_iff_witness :
    (PushIndexResult.mk true false true).finished = true ↔
      (0 ≤ 0 ∧ 0 < 2 ∧ (IncomeIndexQueue.mk 2 [] [1]).existsIdx 0 = false ∧
        (IncomeIndexQueue.mk 2 [] [1, 0]).existsIdx 0 = true ∧
        (IncomeIndexQueue.mk 2 [] [1, 0]).require 0 2 1 = none) :=
  C2_decoder_finished_iff 8 0 2 1 ⟨some okCache, ⟨2, [], [1]⟩⟩ 0 4 4
    ⟨true, false, true⟩ ⟨some okCache, ⟨2, [], [1, 0]⟩⟩ [.seek 0, .write 4]
    (by decide) rfl

/-- C5: with the encoder in `Waiting(desc, result)`, `next_piece`
consumes the stored result and moves to `None`; a successful buffer whose
index still equals the outcome queue's head pops the head and returns
header length plus payload length; a stale index returns 0 and discards
the buffer; a carried error is returned to the caller. -/
theorem C5_next_piece_waiting (chunkLen hdrSize bufLen : Nat)
    (desc : ChunkEncodeDesc) (cache : StateImpl) (st : EncoderStateImpl)
    (pidx pstep : Nat) :
    (∀ payloadLen, st.pending = .Waiting (.Range pidx pstep) (.ok payloadLen) →
      st.indices.next = some pidx → hdrSize ≤ bufLen →
      payloadLen ≤ bufLen - hdrSize →
      StreamEncoder.next_piece chunkLen hdrSize bufLen desc cache st =
        some (.ok (hdrSize + payloadLen), ⟨.None, st.indices.pop_next⟩)) ∧
    (∀ payloadLen, st.pending = .Waiting (.Range pidx pstep) (.ok payloadLen) →
      st.indices.next ≠ some pidx →
      StreamEncoder.next_piece chunkLen hdrSize bufLen desc cache st =
        some (.ok 0, ⟨.None, st.indices⟩)) ∧
    (∀ e, st.pending = .Waiting (.Range pidx pstep) (.error e) →
      StreamEncoder.next_piece chunkLen hdrSize bufLen desc cache st =
        some (.error e, ⟨.None, st.indices⟩)) := by
  obtain ⟨pending, indices⟩ := st
  refine ⟨?_, ?_, ?_⟩
  · intro payloadLen hp hnext hhdr hpay
    simp only at hp
    subst hp
    simp [StreamEncoder.next_piece, PieceDesc.unwrap_as_stream,
      PieceData.encode_header, hnext, hhdr, Nat.not_lt.2 hpay]
  · intro payloadLen hp hnext
    simp only at hp
    subst hp
    simp only at hnext
    simp [StreamEncoder.next_piece, PieceDesc.unwrap_as_stream, hnext]
  · intro e hp
    simp only at hp
    subst hp
    simp [StreamEncoder.next_piece]

/-- Witness for C5: header size 2, 10-byte buffer; a 4-byte payload for
piece 1 at the head `[1,2,3]` is consumed (returns 6, head popped); the
same payload when the head is 1 but the piece is 0 is discarded
(returns 0); a carried `NotFound` error is propagated — the state moves
to `None` each time. -/
theorem C5_next_piece_waiting_witness :
    (StreamEncoder.next_piece 8 2 10 (.Stream 0 4 1) ⟨none, ⟨4, [], []⟩⟩
        ⟨.Waiting (.Range 1 4) (.ok 4), ⟨0, 4, 1, [1, 2, 3]⟩⟩ =
      some (.ok 6, ⟨.None, ⟨0, 4, 1, [2, 3]⟩⟩)) ∧
    (StreamEncoder.next_piece 8 2 10 (.Stream 0 4 1) ⟨none, ⟨4, [], []⟩⟩
        ⟨.Waiting (.Range 0 4) (.ok 4), ⟨0, 4, 1, [1, 2, 3]⟩⟩ =
      some (.ok 0, ⟨.None, ⟨0, 4, 1, [1, 2, 3]⟩⟩)) ∧
    (StreamEncoder.next_piece 8 2 10 (.Stream 0 4 1) ⟨none, ⟨4, [], []⟩⟩
        ⟨.Waiting (.Range 1 4) (.error ⟨.NotFound, "x"⟩), ⟨0, 4, 1, [1]⟩⟩ =
      some (.error ⟨.NotFound, "x"⟩, ⟨.None, ⟨0, 4, 1, [1]⟩⟩)) :=
  ⟨(C5_next_piece_waiting 8 2 10 (.Stream 0 4 1) ⟨none, ⟨4, [], []⟩⟩
      ⟨.Waiting (.Range 1 4) (.ok 4), ⟨0, 4, 1, [1, 2, 3]⟩⟩ 1 4).1 4 rfl rfl
      (by decide) (by decide),
    (C5_next_piece_waiting 8 2 10 (.Stream 0 4 1) ⟨none, ⟨4, [], []⟩⟩
      ⟨.Waiting (.Range 0 4) (.ok 4), ⟨0, 4, 1, [1, 2, 3]⟩⟩ 0 4).2.1 4 rfl
      (by decide),
    (C5_next_piece_waiting 8 2 10 (.Stream 0 4 1) ⟨none, ⟨4, [], []⟩⟩
      ⟨.Waiting (.Range 1 4) (.error ⟨.NotFound, "x"⟩), ⟨0, 4, 1, [1]⟩⟩ 1 4).2.2
      ⟨.NotFound, "x"⟩ rfl⟩

/-- C6: with the encoder idle and the outcome head present in the cache,
an `UnSupport`-class synchronous-read failure moves the encoder to
`Pending(desc)` (the asynchronous read is dispatched; its completion is
the `async_next_piece` transition of the last conjunct) and returns 0
without popping the head; any other synchronous-read failure is returned
to the caller; while `Pending`, `next_piece` returns 0. -/
theorem C6_next_piece_unsupport_goes_async (chunkLen hdrSize bufLen : Nat)
    (s e : Nat) (stp : Int) (cache : StateImpl) (st : EncoderStateImpl) :
    (∀ index err, st.pending = .None → st.indices.next = some index →
      ChunkStreamCache.existsIdx cache index = true → hdrSize ≤ bufLen →
      ChunkStreamCache.sync_try_read chunkLen cache (.Range index stp.natAbs)
        (bufLen - hdrSize) = some (.error err) →
      err.code = .UnSupport →
      StreamEncoder.next_piece chunkLen hdrSize bufLen (.Stream s e stp) cache st =
        some (.ok 0, ⟨.Pending (.Range index stp.natAbs), st.indices⟩)) ∧
    (∀ index err, st.pending = .None → st.indices.next = some index →
      ChunkStreamCache.existsIdx cache index = true → hdrSize ≤ bufLen →
      ChunkStreamCache.sync_try_read chunkLen cache (.Range index stp.natAbs)
        (bufLen - hdrSize) = some (.error err) →
      err.code ≠ .UnSupport →
      StreamEncoder.next_piece chunkLen hdrSize bufLen (.Stream s e stp) cache st =
        some (.error err, st)) ∧
    (∀ pd, st.pending = .Pending pd →
      StreamEncoder.next_piece chunkLen hdrSize bufLen (.Stream s e stp) cache st =
        some (.ok 0, st)) ∧
    (∀ mtu pd res, st.pending = .Pending pd →
      ChunkStreamCache.async_try_read chunkLen cache pd mtu = some res →
      StreamEncoder.async_next_piece chunkLen mtu cache pd st =
        some ⟨.Waiting pd res, st.indices⟩) := by
  obtain ⟨pending, indices⟩ := st
  refine ⟨?_, ?_, ?_, ?_⟩
  · intro index err hp hnext hex hhdr hread hcode
    simp only at hp
    subst hp
    simp only at hnext
    simp [StreamEncoder.next_piece, ChunkEncodeDesc.unwrap_as_stream,
      PieceData.encode_header, hnext, hex, hhdr, hread, hcode]
  · intro index err hp hnext hex hhdr hread hcode
    simp only at hp
    subst hp
    simp only at hnext
    simp [StreamEncoder.next_piece, ChunkEncodeDesc.unwrap_as_stream,
      PieceData.encode_header, hnext, hex, hhdr, hread, hcode]
  · intro pd hp
    simp only at hp
    subst hp
    simp [StreamEncoder.next_piece]
  · intro mtu pd res hp hread
    simp only at hp
    subst hp
    simp [StreamEncoder.async_next_piece, hread]

/-- Witness for C6: piece 0 (4-byte pieces, 8-byte chunk, header 2,
10-byte buffer) committed in the cache; an async-only cache sends the
encoder to `Pending` with 0 returned and the head `[0,1]` unpopped; a
cache failing with a plain I/O error propagates it; a pending encoder
returns 0; the async completion stores `Waiting` with the 4-byte read. -/
theorem C6_next_piece_unsupport_goes_async_witness :
    (StreamEncoder.next_piece 8 2 10 (.Stream 0 2 4)
        ⟨some asyncOnlyCache, ⟨2, [], [0]⟩⟩ ⟨.None, ⟨0, 2, 4, [0, 1]⟩⟩ =
      some (.ok 0, ⟨.Pending (.Range 0 4), ⟨0, 2, 4, [0, 1]⟩⟩)) ∧
    (StreamEncoder.next_piece 8 2 10 (.Stream 0 2 4)
        ⟨some failReadCache, ⟨2, [], [0]⟩⟩ ⟨.None, ⟨0, 2, 4, [0, 1]⟩⟩ =
      some (.error ⟨.Other 5, "io"⟩, ⟨.None, ⟨0, 2, 4, [0, 1]⟩⟩)) ∧
    (StreamEncoder.next_piece 8 2 10 (.Stream 0 2 4)
        ⟨some asyncOnlyCache, ⟨2, [], [0]⟩⟩
        ⟨.Pending (.Range 0 4), ⟨0, 2, 4, [0, 1]⟩⟩ =
      some (.ok 0, ⟨.Pending (.Range 0 4), ⟨0, 2, 4, [0, 1]⟩⟩)) ∧
    (StreamEncoder.async_next_piece 8 8 ⟨some asyncOnlyCache, ⟨2, [], [0]⟩⟩
        (.Range 0 4) ⟨.Pending (.Range 0 4), ⟨0, 2, 4, [0, 1]⟩⟩ =
      some ⟨.Waiting (.Range 0 4) (.ok 4), ⟨0, 2, 4, [0, 1]⟩⟩) :=
  ⟨(C6_next_piece_unsupport_goes_async 8 2 10 0 2 4
      ⟨some asyncOnlyCache, ⟨2, [], [0]⟩⟩ ⟨.None, ⟨0, 2, 4, [0, 1]⟩⟩).1 0
      ⟨.UnSupport, "use async"⟩ rfl rfl rfl (by decide) rfl rfl,
    (C6_next_piece_unsupport_goes_async 8 2 10 0 2 4
      ⟨some failReadCache, ⟨2, [], [0]⟩⟩ ⟨.None, ⟨0, 2, 4, [0, 1]⟩⟩).2.1 0
      ⟨.Other 5, "io"⟩ rfl rfl rfl (by decide) rfl (by decide),
    (C6_next_piece_unsupport_goes_async 8 2 10 0 2 4
      ⟨some asyncOnlyCache, ⟨2, [], [0]⟩⟩
      ⟨.Pending (.Range 0 4), ⟨0, 2, 4, [0, 1]⟩⟩).2.2.1 (.Range 0 4) rfl,
    (C6_next_piece_unsupport_goes_async 8 2 10 0 2 4
      ⟨some asyncOnlyCache, ⟨2, [], [0]⟩⟩
      ⟨.Pending (.Range 0 4), ⟨0, 2, 4, [0, 1]⟩⟩).2.2.2 8 (.Range 0 4)
      (.ok 4) rfl rfl⟩

end CYFS
